import Mathlib

/-!
Verification of the `geoapi` npm client (src/index.js) against its
natural-language specification.

The development shallowly embeds the JavaScript module:

* JavaScript/JSON values that the client passes around are modelled by
  `JsVal` (numbers are modelled as integers: the client never does
  arithmetic on them, it only checks `typeof x === 'number'` and signs).
* The client instance (`class GeoApi`) is modelled by the structure
  `GeoApi`; the axios default-header bag is modelled by its single entry
  the code ever touches, `X-Firebase-AppCheck`.
* Each endpoint method is modelled by its synchronous part: the function
  either returns the request descriptor that would be handed to the
  transport (`Except.ok`), or throws before any network call
  (`Except.error`).  `netCalls` counts the transport invocations of an
  outcome, so "performs no network call" is `netCalls … = 0`.
* The error-wrapping path (`buildError`, `request`) is modelled over an
  explicit axios-style error value `AxiosError`.
-/

/-- JavaScript/JSON values as the client manipulates them.
Numbers carry an integer payload: the client only type-checks and
sign-checks them, so this is faithful for every claim below. -/
inductive JsVal where
  | jnull : JsVal
  | jbool : Bool → JsVal
  | jnum : Int → JsVal
  | jstr : String → JsVal
  | jobj : List (String × JsVal) → JsVal
  | jarr : List JsVal → JsVal

/-- JavaScript truthiness of a value (`undefined`/`null` ↦ `jnull`). -/
def jsTruthy : JsVal → Bool
  | .jnull => false
  | .jbool b => b
  | .jnum n => n != 0
  | .jstr s => s != ""
  | .jobj _ => true
  | .jarr _ => true

/-- `typeof v === 'number'`. -/
def JsVal.isNumber : JsVal → Bool
  | .jnum _ => true
  | _ => false

/-- JavaScript truthiness of a `string | null | undefined` value:
`none` models `null`/`undefined`, and the empty string is falsy. -/
def jsTruthyStr : Option String → Bool
  | none => false
  | some s => s != ""

/-- Minimal JSON string escaping, enough for `JSON.stringify` on the
quote-free payloads exercised here. -/
def jsonEscape (s : String) : String :=
  String.join (s.data.map fun c =>
    if c = '"' then "\\\"" else if c = '\\' then "\\\\" else String.singleton c)

mutual
/-- `JSON.stringify` on the modelled values. -/
def jsonStringify : JsVal → String
  | .jnull => "null"
  | .jbool b => if b then "true" else "false"
  | .jnum n => toString n
  | .jstr s => "\"" ++ jsonEscape s ++ "\""
  | .jobj fs => "\x7b" ++ jsonStringifyFields fs ++ "\x7d"
  | .jarr es => "[" ++ jsonStringifyElems es ++ "]"

def jsonStringifyFields : List (String × JsVal) → String
  | [] => ""
  | [(k, v)] => "\"" ++ jsonEscape k ++ "\":" ++ jsonStringify v
  | (k, v) :: rest =>
      "\"" ++ jsonEscape k ++ "\":" ++ jsonStringify v ++ "," ++ jsonStringifyFields rest

def jsonStringifyElems : List JsVal → String
  | [] => ""
  | [v] => jsonStringify v
  | v :: rest => jsonStringify v ++ "," ++ jsonStringifyElems rest
end

/-- The characters `String.prototype.trim` removes (ECMAScript WhiteSpace
and LineTerminator). -/
def isJsWhitespace (c : Char) : Bool :=
  c ∈ ([' ', '\t', '\n', '\r', '\x0b', '\x0c', ' ', '﻿',
        ' ', ' ', ' ', ' ', ' ', ' ', ' ',
        ' ', ' ', ' ', ' ', ' ', ' ', ' ',
        ' ', ' ', '　'] : List Char)

/-- `url.trim()`: strip leading and trailing JavaScript whitespace. -/
def jsTrim (s : String) : String :=
  String.mk (((s.data.dropWhile isJsWhitespace).reverse.dropWhile isJsWhitespace).reverse)

/-- ASCII lower-casing of one character, modelling the `/i` regex flag on
the ASCII-only pattern `https?:\/\/`. -/
def asciiLower (c : Char) : Char :=
  if 'A' ≤ c ∧ c ≤ 'Z' then Char.ofNat (c.toNat + 32) else c

/-- The test `/^https?:\/\//i.test(s)`. -/
def startsWithHttpProtocol (s : String) : Bool :=
  let l := s.data.map asciiLower
  List.isPrefixOf "http://".data l || List.isPrefixOf "https://".data l

/-- `s.replace(/\/$/, '')`: remove exactly one trailing slash if present. -/
def stripOneTrailingSlash (s : String) : String :=
  if s.data.getLast? = some '/' then String.mk s.data.dropLast else s

/-- A thrown JavaScript `Error`, identified by its message (the source
throws plain `Error`s; the spec's ConfigError/ValidationError taxonomy is
a classification of these throw sites). -/
structure JsError where
  message : String
deriving DecidableEq, Repr

instance {ε α : Type} [DecidableEq ε] [DecidableEq α] : DecidableEq (Except ε α) := fun a b =>
  match a, b with
  | .ok x, .ok y => decidable_of_iff (x = y) (by simp)
  | .error x, .error y => decidable_of_iff (x = y) (by simp)
  | .ok _, .error _ => isFalse (by simp)
  | .error _, .ok _ => isFalse (by simp)

/-- `normalizeBaseUrl(url)` from src/index.js.  The argument is
`Option String` so that an absent (`undefined`/`null`) argument is
representable; `!url` is falsy exactly on absent or empty input. -/
def normalizeBaseUrl (url : Option String) : Except JsError String :=
  if jsTruthyStr url = false then
    .error ⟨"A base URL must be provided."⟩
  else
    .ok (stripOneTrailingSlash
      (if startsWithHttpProtocol (jsTrim (url.getD ""))
       then jsTrim (url.getD "")
       else "https://" ++ jsTrim (url.getD "")))

/-- The server response attached to an axios error (`error.response`):
present exactly when the server answered with a non-2xx status. -/
structure AxiosResponse where
  status : Nat
  data : JsVal

/-- An axios failure value as `buildError` inspects it: `response` when the
server answered, otherwise `request` is `true` when the request was sent
but no response arrived, and `message` is the underlying error message. -/
structure AxiosError where
  response : Option AxiosResponse
  request : Bool
  message : String

/-- The wrapped error thrown by `request()`: a message, an optional HTTP
status, and the original error (the code stores it on `wrapped.original`;
the spec calls this field the `cause`). -/
structure WrappedError where
  message : String
  status : Option Nat
  original : AxiosError

/-- `parts.join(' | ')`. -/
def joinSep : List String → String
  | [] => ""
  | [p] => p
  | p :: rest => p ++ " | " ++ joinSep rest

/-- The string rendering of a response body in `buildError`:
`typeof data === 'string' ? data : JSON.stringify(data)`. -/
def renderData : JsVal → String
  | .jstr s => s
  | d => jsonStringify d

/-- `buildError(error, context)` from src/index.js. -/
def buildError (e : AxiosError) (context : String) : WrappedError :=
  let part0 := "Api request failed" ++ (if context != "" then " during " ++ context else "")
  let parts : List String :=
    match e.response with
    | some r =>
        [part0, "status " ++ toString r.status] ++
          (if jsTruthy r.data then ["response: " ++ renderData r.data] else [])
    | none =>
        if e.request then [part0, "no response received from server"]
        else if e.message != "" then [part0, e.message]
        else [part0]
  { message := joinSep parts
    status := match e.response with
              | some r => some r.status
              | none => none
    original := e }

/-- The outcome of one transport invocation inside `request()`: either the
axios response's `data`, or the axios error. -/
def requestRun (outcome : Except AxiosError JsVal) (context : String) :
    Except WrappedError JsVal :=
  match outcome with
  | .ok v => .ok v
  | .error e => .error (buildError e context)

/-- The guard `typeof roundIndex !== 'number' || roundIndex < 0`. -/
def roundIndexBad : JsVal → Bool
  | .jnum n => decide (n < 0)
  | _ => true

/-- An HTTP method of a request descriptor. -/
inductive Method where
  | get : Method
  | post : Method
deriving DecidableEq, Repr

/-- The axios-like request descriptor each endpoint method hands to the
transport. -/
structure Req where
  method : Method
  url : String
  data : Option JsVal := none
  params : Option (List (String × JsVal)) := none

/-- Field names of a request's JSON object body, in order. -/
def bodyFieldNames (r : Req) : List String :=
  match r.data with
  | some (.jobj fs) => fs.map (·.1)
  | _ => []

/-- Transport invocations performed by the synchronous part of an endpoint
method: `1` when a request descriptor was handed to the transport, `0`
when the method threw first. -/
def netCalls {α : Type} : Except JsError α → Nat
  | .ok _ => 1
  | .error _ => 0

/-- `DEFAULT_BASE_URL` from src/index.js. -/
def DEFAULT_BASE_URL : String := "api.geo.oof2510.space"

/-- The client state: its normalized base URL, the stored App Check token
(`this.appCheckToken`, a JavaScript `string | null`), and the
`X-Firebase-AppCheck` entry of the axios default-header bag — the only
header the code ever touches. -/
structure GeoApi where
  baseURL : String
  appCheckToken : Option String
  headerAppCheck : Option String
deriving DecidableEq, Repr

/-- `setAppCheckToken(token)`: store the token verbatim; set the default
header when the token is truthy, delete it otherwise. -/
def GeoApi.setAppCheckToken (api : GeoApi) (token : Option String) : GeoApi :=
  if jsTruthyStr token then
    { api with appCheckToken := token, headerAppCheck := token }
  else
    { api with appCheckToken := token, headerAppCheck := none }

/-- The constructor `new GeoApi(baseURL, appCheckToken)`: `none` arguments
model omitted ones (`baseURL` defaults to `DEFAULT_BASE_URL`); the token
is installed through `setAppCheckToken` only when truthy. -/
def GeoApi.make (baseURL : Option String := none)
    (appCheckToken : Option String := none) : Except JsError GeoApi :=
  match normalizeBaseUrl (some (baseURL.getD DEFAULT_BASE_URL)) with
  | .error e => .error e
  | .ok b =>
    .ok (if jsTruthyStr appCheckToken then
           GeoApi.setAppCheckToken
             { baseURL := b, appCheckToken := none, headerAppCheck := none } appCheckToken
         else
           { baseURL := b, appCheckToken := none, headerAppCheck := none })

/-- The headers every outgoing request of this client carries (the axios
default headers the code manages). -/
def GeoApi.requestHeaders (api : GeoApi) : List (String × String) :=
  match api.headerAppCheck with
  | some t => [("X-Firebase-AppCheck", t)]
  | none => []

/-- The message of the error `ensureAppCheckToken` throws. -/
def tokenRequiredMsg (action : String) : String :=
  "An App Check token is required to " ++ action ++ ". Call setAppCheckToken(token) first."

/-- `ensureAppCheckToken(action)`: throw unless a truthy token is stored. -/
def GeoApi.ensureAppCheckToken (api : GeoApi) (action : String) : Except JsError Unit :=
  if jsTruthyStr api.appCheckToken = false then
    .error ⟨tokenRequiredMsg action⟩
  else
    .ok ()

/-- `startGame()`: protected, `POST /game/start`. -/
def GeoApi.startGame (api : GeoApi) : Except JsError Req := do
  api.ensureAppCheckToken "start a game"
  pure { method := .post, url := "/game/start" }

/-- `submitScore(gameSessionId, score, metadata = {})`: protected; the
body field names are those of the source (`gameSessionId`, `score`,
`metadata`). -/
def GeoApi.submitScore (api : GeoApi) (gameSessionId : String) (score : JsVal)
    (metadata : List (String × JsVal) := []) : Except JsError Req := do
  api.ensureAppCheckToken "submit a score"
  if gameSessionId = "" then
    .error ⟨"gameSessionId is required to submit a score."⟩
  else if score.isNumber = false then
    .error ⟨"score must be provided as a number."⟩
  else
    pure { method := .post, url := "/game/submit",
           data := some (.jobj [("gameSessionId", .jstr gameSessionId),
                                ("score", score),
                                ("metadata", .jobj metadata)]) }

/-- `startAiDuel()`: protected, `POST /ai-duel/start`. -/
def GeoApi.startAiDuel (api : GeoApi) : Except JsError Req := do
  api.ensureAppCheckToken "start an AI duel"
  pure { method := .post, url := "/ai-duel/start" }

/-- `submitAiGuess(matchId, roundIndex, guess)`: protected; rejects an
empty `matchId`, then a `roundIndex` that is not a number or is negative
(`typeof roundIndex !== 'number' || roundIndex < 0`). -/
def GeoApi.submitAiGuess (api : GeoApi) (matchId : String) (roundIndex : JsVal)
    (guess : String) : Except JsError Req := do
  api.ensureAppCheckToken "submit an AI duel guess"
  if matchId = "" then
    .error ⟨"matchId is required to submit an AI duel guess."⟩
  else if roundIndexBad roundIndex then
    .error ⟨"roundIndex must be a non-negative number."⟩
  else
    pure { method := .post, url := "/ai-duel/guess",
           data := some (.jobj [("matchId", .jstr matchId),
                                ("roundIndex", roundIndex),
                                ("guess", .jstr guess)]) }

/-- `getLeaderboard(limit)`: unprotected; the query is attached only when
`limit` is truthy (`params: limit ? { limit } : undefined`). -/
def GeoApi.getLeaderboard (api : GeoApi) (limit : Option JsVal := none) : Req :=
  { method := .get, url := "/leaderboard/top",
    params := match limit with
              | some l => if jsTruthy l then some [("limit", l)] else none
              | none => none }

/-- `pat` occurs as a contiguous substring of `s`. -/
def strContains (s pat : String) : Prop :=
  ∃ a b : List Char, s.data = a ++ pat.data ++ b

/-- `pat` is a prefix of `s`. -/
def strStartsWith (s pat : String) : Prop :=
  ∃ b : List Char, s.data = pat.data ++ b

/-- A concrete axios failure: the server answered HTTP 500 with body
`{"error":"boom"}`. -/
def sampleAxiosError : AxiosError :=
  { response := some { status := 500, data := .jobj [("error", .jstr "boom")] }
    request := false
    message := "Request failed with status code 500" }

/-- A concrete axios failure: the request was sent but no response ever
arrived (timeout). -/
def sampleTimeoutError : AxiosError :=
  { response := none, request := true, message := "timeout of 15000ms exceeded" }

/-- A concrete client whose App Check token is configured. -/
def tokenApi : GeoApi :=
  { baseURL := "https://api.geo.oof2510.space"
    appCheckToken := some "tok"
    headerAppCheck := some "tok" }

/-- Spec-side reading of §4.1's protocol step: after trimming, prepend
`https://` unless the first seven (resp. eight) characters, lower-cased,
are `http://` (resp. `https://`). -/
def specWithProtocol (s : String) : String :=
  if ((jsTrim s).data.map asciiLower).take 7 = "http://".data ∨
     ((jsTrim s).data.map asciiLower).take 8 = "https://".data
  then jsTrim s
  else "https://" ++ jsTrim s

/-- The §4.1 contract restated from the spec's own words, to be compared
with `normalizeBaseUrl`: fail if the URL is empty or absent; trim
whitespace; prepend `https://` unless the string already starts with
`http://` or `https://` case-insensitively; strip exactly one trailing
slash if present. -/
def normalizeBaseUrlSpec (url : Option String) : Except JsError String :=
  if url = none ∨ url = some "" then
    .error ⟨"A base URL must be provided."⟩
  else
    .ok (if (specWithProtocol (url.getD "")).data.reverse.head? = some '/'
         then String.mk ((specWithProtocol (url.getD "")).data.reverse.tail).reverse
         else specWithProtocol (url.getD ""))

/-- The C6 invariant: the `X-Firebase-AppCheck` default header is present
with the stored token's value exactly when a truthy (non-empty) token is
configured. -/
def headerInvariant (api : GeoApi) : Prop :=
  api.headerAppCheck = (if jsTruthyStr api.appCheckToken then api.appCheckToken else none)

/-- `pat` occurs in the middle of an explicit concatenation. -/
theorem strContains_appended (x pat y : String) : strContains (x ++ pat ++ y) pat :=
  ⟨x.data, y.data, by rw [String.data_append, String.data_append]⟩

theorem strContains_empty (s : String) : strContains s "" :=
  ⟨[], s.data, by simp⟩

theorem joinSep_cons (p q : String) (rest : List String) :
    joinSep (p :: q :: rest) = p ++ " | " ++ joinSep (q :: rest) := rfl

theorem strContains_joinSep_of_mem {ps : List String} {p : String} (h : p ∈ ps) :
    strContains (joinSep ps) p := by
  induction ps with
  | nil => cases h
  | cons q rest ih =>
    cases rest with
    | nil =>
      rcases h with _ | ⟨_, h⟩
      · exact ⟨[], [], by simp [joinSep]⟩
      · cases h
    | cons r rs =>
      rcases h with _ | ⟨_, hmem⟩
      · exact ⟨[], (" | " ++ joinSep (r :: rs)).data, by
          simp [joinSep_cons, String.data_append, List.append_assoc]⟩
      · rcases ih hmem with ⟨a, b, hab⟩
        exact ⟨(q ++ " | ").data ++ a, b, by
          simp [joinSep_cons, String.data_append, hab, List.append_assoc]⟩

theorem strStartsWith_joinSep (p : String) (rest : List String) :
    strStartsWith (joinSep (p :: rest)) p := by
  cases rest with
  | nil => exact ⟨[], by simp [joinSep]⟩
  | cons r rs =>
    exact ⟨(" | " ++ joinSep (r :: rs)).data, by
      simp [joinSep_cons, String.data_append, List.append_assoc]⟩


/-- C1: a failed request is wrapped into exactly three cases joined by
`' | '` into one message: a server response yields `status <code>` plus a
JSON-or-string rendering of a truthy body, with the wrapped error's
`status` equal to that code; a sent-but-unanswered request yields
`no response received from server` with `status` absent; otherwise the
underlying error's message text is included.  In every case the original
error is carried on the wrapped error and the context string is prefixed
into the message. -/
theorem buildError_three_cases (e : AxiosError) (ctx : String) (hctx : ctx ≠ "") :
    requestRun (.error e) ctx = .error (buildError e ctx) ∧
    (buildError e ctx).original = e ∧
    strStartsWith (buildError e ctx).message ("Api request failed during " ++ ctx) ∧
    (match e.response with
     | some r =>
         (buildError e ctx).status = some r.status ∧
         strContains (buildError e ctx).message ("status " ++ toString r.status) ∧
         (jsTruthy r.data = true →
           strContains (buildError e ctx).message ("response: " ++ renderData r.data))
     | none =>
         (buildError e ctx).status = none ∧
         (e.request = true →
           strContains (buildError e ctx).message "no response received from server") ∧
         (e.request = false → strContains (buildError e ctx).message e.message)) := by
  have hb : (ctx != "") = true := bne_iff_ne.mpr hctx
  have hp0 : ("Api request failed" ++ if ctx != "" then " during " ++ ctx else "")
      = "Api request failed during " ++ ctx := by
    rw [if_pos hb]
    apply String.ext
    show ("Api request failed").data ++ (" during " ++ ctx).data
        = ("Api request failed during ").data ++ ctx.data
    rw [String.data_append, ← List.append_assoc]
    congr 1
  obtain ⟨resp, req, msg⟩ := e
  refine ⟨rfl, rfl, ?_, ?_⟩
  · show strStartsWith (buildError ⟨resp, req, msg⟩ ctx).message _
    cases resp with
    | some r =>
      cases hd : jsTruthy r.data with
      | true =>
        simp only [buildError, hd, if_true]
        rw [← hp0]
        exact strStartsWith_joinSep _ _
      | false =>
        simp only [buildError, hd, if_false]
        rw [← hp0]
        exact strStartsWith_joinSep _ _
    | none =>
      cases req with
      | true =>
        simp only [buildError]
        rw [← hp0]
        exact strStartsWith_joinSep _ _
      | false =>
        cases hm : msg != "" with
        | true =>
          simp only [buildError, hm]
          rw [← hp0]
          exact strStartsWith_joinSep _ _
        | false =>
          simp only [buildError, hm]
          rw [← hp0]
          exact strStartsWith_joinSep _ _
  · cases resp with
    | some r =>
      refine ⟨rfl, ?_, ?_⟩
      · cases hd : jsTruthy r.data with
        | true =>
          simp only [buildError, hd, if_true]
          exact strContains_joinSep_of_mem (by simp)
        | false =>
          simp only [buildError, hd, if_false]
          exact strContains_joinSep_of_mem (by simp)
      · intro hd
        simp only [buildError, hd, if_true]
        exact strContains_joinSep_of_mem (by simp)
    | none =>
      refine ⟨rfl, ?_, ?_⟩
      · intro hr
        subst hr
        simp only [buildError]
        exact strContains_joinSep_of_mem (by simp)
      · intro hr
        subst hr
        cases hm : msg != "" with
        | true =>
          simp only [buildError, hm]
          exact strContains_joinSep_of_mem (by simp)
        | false =>
          have : msg = "" := by simpa using hm
          subst this
          exact strContains_empty _

theorem startsWithHttpProtocolIff (t : String) :
    startsWithHttpProtocol t = true ↔
      ((t.data.map asciiLower).take 7 = "http://".data ∨
       (t.data.map asciiLower).take 8 = "https://".data) := by
  unfold startsWithHttpProtocol
  rw [Bool.or_eq_true]
  have l7 : ("http://".data).length = 7 := by decide
  have l8 : ("https://".data).length = 8 := by decide
  constructor
  · rintro (h | h)
    · left
      have hp := List.isPrefixOf_iff_prefix.mp h
      have h2 := List.prefix_iff_eq_take.mp hp
      rw [l7] at h2
      exact h2.symm
    · right
      have hp := List.isPrefixOf_iff_prefix.mp h
      have h2 := List.prefix_iff_eq_take.mp hp
      rw [l8] at h2
      exact h2.symm
  · rintro (h | h)
    · left
      apply List.isPrefixOf_iff_prefix.mpr
      rw [List.prefix_iff_eq_take, l7]
      exact h.symm
    · right
      apply List.isPrefixOf_iff_prefix.mpr
      rw [List.prefix_iff_eq_take, l8]
      exact h.symm

theorem stripOneTrailingSlashRev (w : String) :
    stripOneTrailingSlash w =
      (if w.data.reverse.head? = some '/'
       then String.mk (w.data.reverse.tail).reverse else w) := by
  unfold stripOneTrailingSlash
  rw [List.head?_reverse]
  by_cases h : w.data.getLast? = some '/'
  · rw [if_pos h, if_pos h]
    congr 1
    cases hr : w.data.reverse with
    | nil =>
      have h0 : w.data = [] := by simpa using congrArg List.reverse hr
      simp [h0]
    | cons a tl =>
      have h0 : w.data = tl.reverse ++ [a] := by
        have := congrArg List.reverse hr
        simpa using this
      rw [h0]
      simp
  · rw [if_neg h, if_neg h]

/-- C2: `normalizeBaseUrl` satisfies the spec's contract: it fails on an
empty or absent input and otherwise trims whitespace, prepends `https://`
unless an `http://`/`https://` protocol is already present
case-insensitively, and strips exactly one trailing slash; in particular
`"example.com/"` normalizes to `"https://example.com"` and
`"http://example.com"` is preserved. -/
theorem normalizeBaseUrl_contract :
    (∀ url : Option String, normalizeBaseUrl url = normalizeBaseUrlSpec url) ∧
    normalizeBaseUrl (some "example.com/") = .ok "https://example.com" ∧
    normalizeBaseUrl (some "http://example.com") = .ok "http://example.com" := by
  refine ⟨?_, by decide, by decide⟩
  intro url
  cases url with
  | none => rfl
  | some s =>
    by_cases hs : s = ""
    · subst hs
      rfl
    · have hcond : ¬(jsTruthyStr (some s) = false) := by
        simp [jsTruthyStr, bne_iff_ne, hs]
      have hWW : (if startsWithHttpProtocol (jsTrim s) then jsTrim s
                  else "https://" ++ jsTrim s) = specWithProtocol s := by
        unfold specWithProtocol
        by_cases hp : startsWithHttpProtocol (jsTrim s) = true
        · rw [if_pos hp, if_pos ((startsWithHttpProtocolIff _).mp hp)]
        · rw [if_neg hp, if_neg fun hc => hp ((startsWithHttpProtocolIff _).mpr hc)]
      have hcond2 : ¬(some s = none ∨ some s = some "") := by simp [hs]
      unfold normalizeBaseUrl normalizeBaseUrlSpec
      rw [if_neg hcond, if_neg hcond2, ← stripOneTrailingSlashRev]
      simp only [Option.getD]
      rw [hWW]

/-- C9: on a non-empty all-whitespace input the emptiness check (`!url`)
passes, trimming yields the empty string, `https://` is prepended and one
trailing slash stripped, so `normalizeBaseUrl` succeeds with the invalid
base URL `"https:/"`. -/
theorem normalizeBaseUrl_whitespace_only (s : String) (hne : s ≠ "")
    (hws : ∀ c ∈ s.data, isJsWhitespace c = true) :
    normalizeBaseUrl (some s) = .ok "https:/" := by
  have hcond : ¬(jsTruthyStr (some s) = false) := by
    simp [jsTruthyStr, bne_iff_ne, hne]
  have h1 : s.data.dropWhile isJsWhitespace = [] :=
    List.dropWhile_eq_nil_iff.mpr hws
  have htrim : jsTrim s = "" := by
    unfold jsTrim
    rw [h1]
    rfl
  unfold normalizeBaseUrl
  rw [if_neg hcond]
  simp only [Option.getD]
  rw [htrim]
  decide

/-- C9 witness: the two-space string. -/
theorem normalizeBaseUrl_whitespace_only_witness :
    ("  " ≠ "") ∧ normalizeBaseUrl (some "  ") = .ok "https:/" :=
  ⟨by decide, normalizeBaseUrl_whitespace_only "  " (by decide) (by decide)⟩

/-- C5 counterexample: normalization is not idempotent in general; on
`"example.com//"` the first pass keeps one of the two trailing slashes,
and a second pass removes it. -/
theorem normalizeBaseUrl_not_idempotent :
    normalizeBaseUrl (some "example.com//") = .ok "https://example.com/" ∧
    normalizeBaseUrl (some "https://example.com/") ≠ .ok "https://example.com/" :=
  ⟨by decide, by decide⟩

theorem toNat_ofNat_valid (n : Nat) (hv : n.isValidChar) : (Char.ofNat n).toNat = n := by
  simp [Char.ofNat, hv, Char.ofNatAux, Char.toNat]
  rfl

theorem asciiLowerSlash {c : Char} (h : asciiLower c = '/') : c = '/' := by
  unfold asciiLower at h
  split at h
  · exfalso
    rename_i hc
    have h65 : 65 ≤ c.toNat := by
      have h0 := hc.1
      rw [Char.le_def] at h0
      exact h0
    have h90 : c.toNat ≤ 90 := by
      have h0 := hc.2
      rw [Char.le_def] at h0
      exact h0
    have hv : (c.toNat + 32).isValidChar := Or.inl (by omega)
    have h47 := congrArg Char.toNat h
    rw [toNat_ofNat_valid _ hv] at h47
    rw [show ('/' : Char).toNat = 47 from by decide] at h47
    omega
  · exact h

theorem startsWithHttpProtocolAppend (t : String) :
    startsWithHttpProtocol ("https://" ++ t) = true := by
  unfold startsWithHttpProtocol
  rw [Bool.or_eq_true]
  right
  apply List.isPrefixOf_iff_prefix.mpr
  rw [String.data_append, List.map_append]
  rw [show "https://".data.map asciiLower = "https://".data from by decide]
  exact List.prefix_append _ _

theorem prefixOf_dropLast {p l : List Char} (h : List.isPrefixOf p l = true)
    (hlt : p.length < l.length) : List.isPrefixOf p l.dropLast = true := by
  apply List.isPrefixOf_iff_prefix.mpr
  have hp := List.prefix_iff_eq_take.mp (List.isPrefixOf_iff_prefix.mp h)
  rw [List.prefix_iff_eq_take, List.dropLast_eq_take, List.take_take]
  rw [min_eq_left (by omega)]
  exact hp

theorem map_dropLast_ascii (l : List Char) :
    l.dropLast.map asciiLower = (l.map asciiLower).dropLast := by
  rw [List.dropLast_eq_take, List.dropLast_eq_take, List.length_map]
  exact List.map_take ..

theorem protoPrefix_dropLast {pat l : List Char}
    (hpd : pat.dropLast.getLast? = some '/')
    (h : List.isPrefixOf pat (l.map asciiLower) = true)
    (h3 : l.dropLast.getLast? ≠ some '/') :
    List.isPrefixOf pat (l.dropLast.map asciiLower) = true := by
  have hlen : pat.length ≤ l.length := by
    have h0 := (List.isPrefixOf_iff_prefix.mp h).length_le
    simpa using h0
  rcases lt_or_eq_of_le hlen with hlt | heq
  · have hlt2 : pat.length < (l.map asciiLower).length := by simpa using hlt
    have hres := prefixOf_dropLast h hlt2
    rwa [map_dropLast_ascii]
  · exfalso
    apply h3
    have hM : pat = l.map asciiLower :=
      (List.isPrefixOf_iff_prefix.mp h).eq_of_length (by simpa using heq)
    have hlast : (l.dropLast.map asciiLower).getLast? = some '/' := by
      rw [map_dropLast_ascii, ← hM]
      exact hpd
    rw [List.getLast?_map] at hlast
    rcases Option.map_eq_some'.mp hlast with ⟨c, hc, hlc⟩
    rw [hc, asciiLowerSlash hlc]

theorem startsWithHttpProtocol_stripOne (w : String)
    (hw : startsWithHttpProtocol w = true)
    (h3 : (stripOneTrailingSlash w).data.getLast? ≠ some '/') :
    startsWithHttpProtocol (stripOneTrailingSlash w) = true := by
  unfold stripOneTrailingSlash at h3 ⊢
  by_cases hl : w.data.getLast? = some '/'
  · rw [if_pos hl] at h3 ⊢
    unfold startsWithHttpProtocol at hw ⊢
    rw [Bool.or_eq_true] at hw ⊢
    show List.isPrefixOf "http://".data (w.data.dropLast.map asciiLower) = true ∨
         List.isPrefixOf "https://".data (w.data.dropLast.map asciiLower) = true
    have h3' : w.data.dropLast.getLast? ≠ some '/' := h3
    rcases hw with h | h
    · exact Or.inl (protoPrefix_dropLast (by decide) h h3')
    · exact Or.inr (protoPrefix_dropLast (by decide) h h3')
  · rw [if_neg hl] at h3 ⊢
    exact hw

/-- C5 amended: normalization is idempotent on every successful output
that has no trailing slash and no trailing whitespace (equivalently, that
trimming leaves unchanged); the counterexample above shows the trailing
slash restriction is necessary. -/
theorem normalizeBaseUrl_idempotent_of_clean (s r : String)
    (h1 : normalizeBaseUrl (some s) = .ok r)
    (h2 : jsTrim r = r)
    (h3 : r.data.getLast? ≠ some '/') :
    normalizeBaseUrl (some r) = .ok r := by
  by_cases hs : jsTruthyStr (some s) = false
  · rw [normalizeBaseUrl, if_pos hs] at h1
    exact absurd h1 (by simp)
  · rw [normalizeBaseUrl, if_neg hs] at h1
    simp only [Option.getD] at h1
    have hr : r = stripOneTrailingSlash
        (if startsWithHttpProtocol (jsTrim s) then jsTrim s
         else "https://" ++ jsTrim s) := (Except.ok.inj h1).symm
    have hW : startsWithHttpProtocol
        (if startsWithHttpProtocol (jsTrim s) then jsTrim s
         else "https://" ++ jsTrim s) = true := by
      by_cases hp : startsWithHttpProtocol (jsTrim s) = true
      · rwa [if_pos hp]
      · rw [if_neg hp]
        exact startsWithHttpProtocolAppend _
    have hpr : startsWithHttpProtocol r = true := by
      rw [hr]
      exact startsWithHttpProtocol_stripOne _ hW (hr ▸ h3)
    have hrne : r ≠ "" := by
      intro h0
      rw [h0] at hpr
      exact absurd hpr (by decide)
    have hcond : ¬(jsTruthyStr (some r) = false) := by
      simp [jsTruthyStr, bne_iff_ne, hrne]
    rw [normalizeBaseUrl, if_neg hcond]
    simp only [Option.getD]
    rw [h2, if_pos hpr]
    unfold stripOneTrailingSlash
    rw [if_neg h3]

/-- C5 amended witness: a clean normalized output is a fixed point. -/
theorem normalizeBaseUrl_idempotent_of_clean_witness :
    normalizeBaseUrl (some "example.com") = .ok "https://example.com" ∧
    jsTrim "https://example.com" = "https://example.com" ∧
    ("https://example.com").data.getLast? ≠ some '/' ∧
    normalizeBaseUrl (some "https://example.com") = .ok "https://example.com" :=
  ⟨by decide, by decide, by decide,
   normalizeBaseUrl_idempotent_of_clean "example.com" "https://example.com"
     (by decide) (by decide) (by decide)⟩

/-- C1 witness: the HTTP-500 body `{"error":"boom"}` and the timeout
failure, at concrete contexts. -/
theorem buildError_three_cases_witness :
    ("start game" ≠ "") ∧
    (buildError sampleAxiosError "start game").status = some 500 ∧
    strContains (buildError sampleAxiosError "start game").message
      ("status " ++ toString 500) ∧
    strContains (buildError sampleAxiosError "start game").message
      ("response: " ++ renderData (JsVal.jobj [("error", JsVal.jstr "boom")])) ∧
    (buildError sampleTimeoutError "fetch leaderboard").status = none ∧
    strContains (buildError sampleTimeoutError "fetch leaderboard").message
      "no response received from server" := by
  have h1 := buildError_three_cases sampleAxiosError "start game" (by decide)
  have h2 := buildError_three_cases sampleTimeoutError "fetch leaderboard" (by decide)
  exact ⟨by decide, h1.2.2.2.1, h1.2.2.2.2.1, h1.2.2.2.2.2 rfl,
         h2.2.2.2.1, h2.2.2.2.2.1 rfl⟩

/-- C3: whenever no App Check token is configured (never set, or cleared),
each of the four protected methods fails synchronously with the error that
names the action, and the transport receives zero invocations. -/
theorem protected_methods_require_token (api : GeoApi)
    (h : jsTruthyStr api.appCheckToken = false)
    (sid : String) (score : JsVal) (meta : List (String × JsVal))
    (mid : String) (ri : JsVal) (guess : String) :
    api.startGame = .error ⟨tokenRequiredMsg "start a game"⟩ ∧
    api.submitScore sid score meta = .error ⟨tokenRequiredMsg "submit a score"⟩ ∧
    api.startAiDuel = .error ⟨tokenRequiredMsg "start an AI duel"⟩ ∧
    api.submitAiGuess mid ri guess
      = .error ⟨tokenRequiredMsg "submit an AI duel guess"⟩ ∧
    strContains (tokenRequiredMsg "start a game") "start a game" ∧
    strContains (tokenRequiredMsg "submit a score") "submit a score" ∧
    strContains (tokenRequiredMsg "start an AI duel") "start an AI duel" ∧
    strContains (tokenRequiredMsg "submit an AI duel guess") "submit an AI duel guess" ∧
    netCalls api.startGame = 0 ∧
    netCalls (api.submitScore sid score meta) = 0 ∧
    netCalls api.startAiDuel = 0 ∧
    netCalls (api.submitAiGuess mid ri guess) = 0 := by
  have he : ∀ a : String, api.ensureAppCheckToken a = .error ⟨tokenRequiredMsg a⟩ := by
    intro a
    unfold GeoApi.ensureAppCheckToken
    rw [if_pos h]
  have hg : api.startGame = .error ⟨tokenRequiredMsg "start a game"⟩ := by
    unfold GeoApi.startGame
    rw [he]
    rfl
  have hs : api.submitScore sid score meta = .error ⟨tokenRequiredMsg "submit a score"⟩ := by
    unfold GeoApi.submitScore
    rw [he]
    rfl
  have ha : api.startAiDuel = .error ⟨tokenRequiredMsg "start an AI duel"⟩ := by
    unfold GeoApi.startAiDuel
    rw [he]
    rfl
  have hag : api.submitAiGuess mid ri guess
      = .error ⟨tokenRequiredMsg "submit an AI duel guess"⟩ := by
    unfold GeoApi.submitAiGuess
    rw [he]
    rfl
  refine ⟨hg, hs, ha, hag,
    strContains_appended "An App Check token is required to " _ ". Call setAppCheckToken(token) first.",
    strContains_appended "An App Check token is required to " _ ". Call setAppCheckToken(token) first.",
    strContains_appended "An App Check token is required to " _ ". Call setAppCheckToken(token) first.",
    strContains_appended "An App Check token is required to " _ ". Call setAppCheckToken(token) first.",
    ?_, ?_, ?_, ?_⟩
  · rw [hg]
    rfl
  · rw [hs]
    rfl
  · rw [ha]
    rfl
  · rw [hag]
    rfl

/-- C3 witness: a freshly constructed client with no token rejects every
protected method without touching the transport. -/
theorem protected_methods_require_token_witness :
    jsTruthyStr ({ baseURL := "https://api.geo.oof2510.space",
                   appCheckToken := none, headerAppCheck := none } : GeoApi).appCheckToken
      = false ∧
    ({ baseURL := "https://api.geo.oof2510.space",
       appCheckToken := none, headerAppCheck := none } : GeoApi).startGame
      = .error ⟨tokenRequiredMsg "start a game"⟩ ∧
    netCalls (({ baseURL := "https://api.geo.oof2510.space",
                 appCheckToken := none, headerAppCheck := none } : GeoApi).submitAiGuess
        "m1" (.jnum 0) "France") = 0 := by
  have h := protected_methods_require_token
    { baseURL := "https://api.geo.oof2510.space",
      appCheckToken := none, headerAppCheck := none }
    rfl "s1" (.jnum 5) [] "m1" (.jnum 0) "France"
  obtain ⟨hg, _, _, _, _, _, _, _, _, _, _, n4⟩ := h
  exact ⟨rfl, hg, n4⟩

/-- C4 counterexample: on a token-configured client, `submitScore` sends a
body whose field names are `gameSessionId`, `score`, `metadata` — not the
`id`, `score`, `meta` of the claimed endpoint table. -/
theorem submitScore_body_names_counterexample :
    (tokenApi.submitScore "s1" (.jnum 5) []).map bodyFieldNames
      = .ok ["gameSessionId", "score", "metadata"] ∧
    ["gameSessionId", "score", "metadata"] ≠ ["id", "score", "meta"] :=
  ⟨rfl, by decide⟩

/-- C4 amended: with a configured token, a non-empty session id and a
numeric score, `submitScore` issues `POST /game/submit` whose body field
names are exactly `gameSessionId`, `score`, `metadata` (the metadata
argument defaults to the empty object). -/
theorem submitScore_request_shape (api : GeoApi)
    (htok : jsTruthyStr api.appCheckToken = true)
    (sid : String) (hsid : sid ≠ "") (n : Int) (meta : List (String × JsVal)) :
    api.submitScore sid (.jnum n) meta
      = .ok { method := .post, url := "/game/submit",
              data := some (.jobj [("gameSessionId", .jstr sid),
                                   ("score", .jnum n),
                                   ("metadata", .jobj meta)]) } := by
  have he : api.ensureAppCheckToken "submit a score" = .ok () := by
    unfold GeoApi.ensureAppCheckToken
    rw [if_neg (by simp [htok])]
  unfold GeoApi.submitScore
  rw [he, if_neg hsid, if_neg (by simp [JsVal.isNumber])]
  rfl

/-- C4 amended witness. -/
theorem submitScore_request_shape_witness :
    jsTruthyStr tokenApi.appCheckToken = true ∧ ("s1" ≠ "") ∧
    tokenApi.submitScore "s1" (.jnum 5) []
      = .ok { method := .post, url := "/game/submit",
              data := some (.jobj [("gameSessionId", .jstr "s1"),
                                   ("score", .jnum 5),
                                   ("metadata", .jobj [])]) } :=
  ⟨rfl, by decide, submitScore_request_shape tokenApi rfl "s1" (by decide) 5 []⟩

/-- C6: the constructor establishes the header invariant, every
`setAppCheckToken` call re-establishes it, a non-empty token installs the
header for all future requests, and clearing the token (e.g. after
setting `"abc"`) removes both the stored token and the header. -/
theorem appCheck_header_invariant :
    (∀ (b t : Option String) (api : GeoApi),
      GeoApi.make b t = .ok api → headerInvariant api) ∧
    (∀ (api : GeoApi) (t : Option String), headerInvariant (api.setAppCheckToken t)) ∧
    (∀ (api : GeoApi) (t : String), t ≠ "" →
      (api.setAppCheckToken (some t)).requestHeaders = [("X-Firebase-AppCheck", t)]) ∧
    (∀ api : GeoApi,
      ((api.setAppCheckToken (some "abc")).setAppCheckToken none).appCheckToken = none ∧
      ((api.setAppCheckToken (some "abc")).setAppCheckToken none).requestHeaders = []) := by
  have hset : ∀ api t, headerInvariant (GeoApi.setAppCheckToken api t) := by
    intro api t
    unfold GeoApi.setAppCheckToken headerInvariant
    by_cases ht : jsTruthyStr t = true
    · rw [if_pos ht]
      simp [ht]
    · rw [if_neg ht]
      simp [Bool.not_eq_true] at ht
      simp [ht]
  refine ⟨?_, hset, ?_, ?_⟩
  · intro b t api h
    unfold GeoApi.make at h
    cases hn : normalizeBaseUrl (some (b.getD DEFAULT_BASE_URL)) with
    | error e =>
      rw [hn] at h
      exact absurd h (by simp)
    | ok bu =>
      rw [hn] at h
      have h2 := Except.ok.inj h
      rw [← h2]
      by_cases ht : jsTruthyStr t = true
      · rw [if_pos ht]
        exact hset _ _
      · rw [if_neg ht]
        unfold headerInvariant
        simp [jsTruthyStr]
  · intro api t ht
    unfold GeoApi.setAppCheckToken
    rw [if_pos (show jsTruthyStr (some t) = true by simp [jsTruthyStr, bne_iff_ne, ht])]
    rfl
  · intro api
    exact ⟨rfl, rfl⟩

/-- C6 witness: constructing with token `"abc"` satisfies the invariant,
and clearing removes the header. -/
theorem appCheck_header_invariant_witness :
    GeoApi.make (some "example.com") (some "abc")
      = .ok { baseURL := "https://example.com",
              appCheckToken := some "abc", headerAppCheck := some "abc" } ∧
    headerInvariant { baseURL := "https://example.com",
                      appCheckToken := some "abc", headerAppCheck := some "abc" } ∧
    ("abc" ≠ "") ∧
    (tokenApi.setAppCheckToken (some "abc")).requestHeaders
      = [("X-Firebase-AppCheck", "abc")] ∧
    ((tokenApi.setAppCheckToken (some "abc")).setAppCheckToken none).requestHeaders = [] := by
  have h := appCheck_header_invariant
  exact ⟨by decide, h.1 (some "example.com") (some "abc") _ (by decide), by decide,
         h.2.2.1 tokenApi "abc" (by decide), (h.2.2.2 tokenApi).2⟩

/-- C7: with a configured token, `submitAiGuess` rejects an empty matchId,
then a roundIndex that is not a number or is negative, synchronously and
with zero transport invocations; with valid arguments it issues
`POST /ai-duel/guess` with body `{matchId, roundIndex, guess}`. -/
theorem submitAiGuess_spec (api : GeoApi)
    (htok : jsTruthyStr api.appCheckToken = true)
    (mid : String) (ri : JsVal) (guess : String) :
    (mid = "" →
      api.submitAiGuess mid ri guess
        = .error ⟨"matchId is required to submit an AI duel guess."⟩ ∧
      netCalls (api.submitAiGuess mid ri guess) = 0) ∧
    (mid ≠ "" → (ri.isNumber = false ∨ ∃ n : Int, ri = .jnum n ∧ n < 0) →
      api.submitAiGuess mid ri guess
        = .error ⟨"roundIndex must be a non-negative number."⟩ ∧
      netCalls (api.submitAiGuess mid ri guess) = 0) ∧
    (∀ n : Int, mid ≠ "" → 0 ≤ n →
      api.submitAiGuess mid (.jnum n) guess
        = .ok { method := .post, url := "/ai-duel/guess",
                data := some (.jobj [("matchId", .jstr mid),
                                     ("roundIndex", .jnum n),
                                     ("guess", .jstr guess)]) }) := by
  have he : api.ensureAppCheckToken "submit an AI duel guess" = .ok () := by
    unfold GeoApi.ensureAppCheckToken
    rw [if_neg (by simp [htok])]
  refine ⟨?_, ?_, ?_⟩
  · intro hmid
    have heq : api.submitAiGuess mid ri guess
        = .error ⟨"matchId is required to submit an AI duel guess."⟩ := by
      unfold GeoApi.submitAiGuess
      rw [he, if_pos hmid]
      rfl
    exact ⟨heq, by rw [heq]; rfl⟩
  · intro hmid hbad
    have hcond : roundIndexBad ri = true := by
      rcases hbad with hnum | ⟨n, rfl, hneg⟩
      · cases ri <;> simp_all [JsVal.isNumber, roundIndexBad]
      · simp [roundIndexBad, hneg]
    have heq : api.submitAiGuess mid ri guess
        = .error ⟨"roundIndex must be a non-negative number."⟩ := by
      unfold GeoApi.submitAiGuess
      rw [he, if_neg hmid, if_pos hcond]
      rfl
    exact ⟨heq, by rw [heq]; rfl⟩
  · intro n hmid hn
    unfold GeoApi.submitAiGuess
    rw [he, if_neg hmid]
    rw [if_neg (show ¬(roundIndexBad (JsVal.jnum n) = true) by
      simp [roundIndexBad]
      omega)]
    rfl

/-- C7 witness: `submitAiGuess("m1", -1, "France")` fails before any
network call, and a valid call produces the documented request. -/
theorem submitAiGuess_spec_witness :
    jsTruthyStr tokenApi.appCheckToken = true ∧
    tokenApi.submitAiGuess "m1" (.jnum (-1)) "France"
      = .error ⟨"roundIndex must be a non-negative number."⟩ ∧
    netCalls (tokenApi.submitAiGuess "m1" (.jnum (-1)) "France") = 0 ∧
    tokenApi.submitAiGuess "m1" (.jnum 0) "France"
      = .ok { method := .post, url := "/ai-duel/guess",
              data := some (.jobj [("matchId", .jstr "m1"),
                                   ("roundIndex", .jnum 0),
                                   ("guess", .jstr "France")]) } := by
  have h := submitAiGuess_spec tokenApi rfl "m1" (.jnum (-1)) "France"
  have h2 := submitAiGuess_spec tokenApi rfl "m1" (.jnum 0) "France"
  have hbad := h.2.1 (by decide) (Or.inr ⟨-1, rfl, by decide⟩)
  exact ⟨rfl, hbad.1, hbad.2, h2.2.2 0 (by decide) (by decide)⟩

/-- C8: `getLeaderboard()` sends no query parameter and
`getLeaderboard(10)` sends `limit=10`, both as `GET /leaderboard/top`. -/
theorem getLeaderboard_limit_param (api : GeoApi) :
    api.getLeaderboard none
      = { method := .get, url := "/leaderboard/top", data := none, params := none } ∧
    api.getLeaderboard (some (.jnum 10))
      = { method := .get, url := "/leaderboard/top", data := none,
          params := some [("limit", .jnum 10)] } :=
  ⟨rfl, rfl⟩

/-- C10: `getLeaderboard(0)` attaches no query parameter, because the
query is attached only when the limit argument is truthy and the number 0
is falsy — exactly like omitting the argument. -/
theorem getLeaderboard_zero_limit (api : GeoApi) :
    api.getLeaderboard (some (.jnum 0))
      = { method := .get, url := "/leaderboard/top", data := none, params := none } ∧
    api.getLeaderboard (some (.jnum 0)) = api.getLeaderboard none :=
  ⟨rfl, rfl⟩
